import Mathlib

/-!
Shallow embedding of the `local-echo` terminal controller (wavesoft/local-echo).

Strings are modelled as `List Char`.  JavaScript numbers used as indices or
cursor offsets are modelled as `Int` where the source can produce negative
values, and as `Nat` where it cannot.  Fallible behaviour is modelled with
`Option`/`Except`.

Embedded source files:
* `HistoryController` (history ring buffer),
* `Utils` (word boundaries, offset/col-row conversion, incomplete-input
  detection, autocomplete candidate collection, shared fragment),
* `LocalEchoController` (session state: buffer, cursor, prompts).
-/

namespace LocalEcho

/-- ASCII whitespace as trimmed by JavaScript `String.prototype.trim`. -/
def isJsSpace (c : Char) : Bool :=
  c = ' ' || c = '\t' || c = '\n' || c = '\r' || c = '\x0b' || c = '\x0c'

/-- JavaScript `s.trim()`: strip leading and trailing whitespace. -/
def jsTrim (s : List Char) : List Char :=
  ((s.dropWhile isJsSpace).reverse.dropWhile isJsSpace).reverse

/-- JavaScript `s.substr(start)` (negative `start` counts from the end). -/
def jsSubstrFrom (s : List Char) (start : Int) : List Char :=
  s.drop (if start < 0 then ((s.length : Int) + start).toNat else start.toNat)

/-- JavaScript `s.substr(start, count)`. -/
def jsSubstrLen (s : List Char) (start count : Int) : List Char :=
  (jsSubstrFrom s start).take count.toNat

/-! ## HistoryController -/

/-- State of `HistoryController` (`constructor(size)`): entry ring, its
configured capacity and the navigation cursor. -/
structure HistoryState where
  size : Nat
  entries : List (List Char)
  cursor : Nat
deriving Repr, DecidableEq

/-- `new HistoryController(size)`. -/
def HistoryState.init (size : Nat) : HistoryState :=
  { size := size, entries := [], cursor := 0 }

/-- `HistoryController.push(entry)`.  Note `this.entries.pop(0)` in the
source: JavaScript `Array.prototype.pop` ignores its argument and removes the
LAST element, modelled by `List.dropLast`. -/
def HistoryState.push (h : HistoryState) (entry : List Char) : HistoryState :=
  if jsTrim entry = [] then h
  else if h.entries.getLast? = some entry then h
  else
    let es := h.entries ++ [entry]
    let es' := if es.length > h.size then es.dropLast else es
    { h with entries := es', cursor := es'.length }

/-- `HistoryController.rewind()`. -/
def HistoryState.rewind (h : HistoryState) : HistoryState :=
  { h with cursor := h.entries.length }

/-- `HistoryController.getPrevious()`: returns the updated state together
with `entries[idx]` (`none` models JavaScript `undefined`).
`Math.max(0, cursor - 1)` is truncated `Nat` subtraction. -/
def HistoryState.getPrevious (h : HistoryState) : HistoryState × Option (List Char) :=
  let idx := h.cursor - 1
  ({ h with cursor := idx }, h.entries.get? idx)

/-- `HistoryController.getNext()`. -/
def HistoryState.getNext (h : HistoryState) : HistoryState × Option (List Char) :=
  let idx := min h.entries.length (h.cursor + 1)
  ({ h with cursor := idx }, h.entries.get? idx)

/-! ## Utils: incomplete-input detection -/

/-- The last chunk of JavaScript `input.split(/(\|\||\||&&)/g)`: the suffix of
`input` after the final `||`, `|` or `&&` separator, scanning left-to-right
with the regex alternation order.  `acc` holds the current chunk reversed. -/
def lastSplitChunk : List Char → List Char → List Char
  | [], acc => acc.reverse
  | '|' :: '|' :: rest, _ => lastSplitChunk rest []
  | '|' :: rest, _ => lastSplitChunk rest []
  | '&' :: '&' :: rest, _ => lastSplitChunk rest []
  | c :: rest, acc => lastSplitChunk rest (c :: acc)

/-- `isIncompleteInput(input)` from `Utils`: blank input is complete; then the
four checks in source order (odd number of `'` characters, odd number of `"`
characters, dangling `||`/`|`/`&&` operator, tailing single backslash). -/
def isIncompleteInput (input : List Char) : Bool :=
  if jsTrim input = [] then false
  else if input.count '\'' % 2 ≠ 0 then true
  else if input.count '"' % 2 ≠ 0 then true
  else if jsTrim (lastSplitChunk input []) = [] then true
  else if List.isSuffixOf ['\\'] input && !(List.isSuffixOf ['\\', '\\'] input) then true
  else false

/-! ## Utils: word boundaries -/

/-- JavaScript regex `\w`: ASCII letters, digits and underscore. -/
def isWordChar (c : Char) : Bool :=
  c.isAlpha || c.isDigit || c = '_'

/-- Whether the character at index `i` (if any) is a word character. -/
def isWordCharAt (input : List Char) (i : Nat) : Bool :=
  match input.get? i with
  | some c => isWordChar c
  | none => false

/-- `wordBoundaries(input, leftSide)`: for `leftSide` the start index of every
maximal `\w+` run (`match.index`), otherwise the index one past its last
character (`match.index + match[0].length`).  Indices are ascending, as
produced by the `rx.exec` scan. -/
def wordBoundaries (input : List Char) (leftSide : Bool) : List Nat :=
  if leftSide then
    (List.range input.length).filter fun i =>
      isWordCharAt input i && (i == 0 || !isWordCharAt input (i - 1))
  else
    (List.range (input.length + 1)).filter fun i =>
      i != 0 && isWordCharAt input (i - 1) && !isWordCharAt input i

/-- `closestLeftBoundary(input, offset)`: last left boundary `< offset`,
falling back to `0` (`found == null ? 0 : found`). -/
def closestLeftBoundary (input : List Char) (offset : Int) : Nat :=
  (((wordBoundaries input true).reverse).find? (fun x : Nat => decide ((x : Int) < offset))).getD 0

/-- `closestRightBoundary(input, offset)`: first right boundary `> offset`,
falling back to `input.length`. -/
def closestRightBoundary (input : List Char) (offset : Int) : Nat :=
  ((wordBoundaries input false).find? (fun x : Nat => decide (offset < (x : Int)))).getD input.length

/-! ## Utils: offset to col/row conversion -/

/-- One iteration of the `offsetToColRow` loop: `input.charAt(i)` yields the
empty string past the end of the input (modelled by `none`), which is not
`"\n"` and therefore advances the column. -/
def offsetToColRowStep (maxCols : Nat) (rc : Nat × Nat) (c : Option Char) : Nat × Nat :=
  if c = some '\n' then (rc.1 + 1, 0)
  else if rc.2 + 1 > maxCols then (rc.1 + 1, 0)
  else (rc.1, rc.2 + 1)

/-- `offsetToColRow(input, offset, maxCols)` as `(row, col)`. -/
def offsetToColRow (input : List Char) (offset maxCols : Nat) : Nat × Nat :=
  (List.range offset).foldl (fun rc i => offsetToColRowStep maxCols rc (input.get? i)) (0, 0)

/-- `countLines(input, maxCols)`. -/
def countLines (input : List Char) (maxCols : Nat) : Nat :=
  (offsetToColRow input input.length maxCols).1 + 1

/-! ## Utils: autocomplete -/

/-- Multiline regex `/[^\\][ \t]$/m`: some character other than a backslash,
followed by a space or tab that sits at the end of the input or just before a
newline. -/
def hasTailingWhitespace (input : List Char) : Bool :=
  (List.range input.length).any fun i =>
    match input.get? i, input.get? (i + 1) with
    | some c1, some c2 =>
      c1 ≠ '\\' && (c2 = ' ' || c2 = '\t') &&
        (input.get? (i + 2) = none || input.get? (i + 2) = some '\n')
    | _, _ => false

/-- A registered autocomplete handler `{fn, args}`; `run index tokens` models
`fn(index, tokens, ...args)`, with `Except.error` modelling a thrown
exception. -/
structure AutocompleteCallback where
  run : Int → List (List Char) → Except Unit (List (List Char))

/-- The `index`/`expr` computation at the head of
`collectAutocompleteCandidates`: `index = tokens.length - 1` and
`expr = tokens[index] || ""`, overridden for blank input (`index = 0`,
`expr = ""`) and for input with tailing whitespace (`index += 1`,
`expr = ""`). -/
def autocompleteIndexExpr (tokens : List (List Char)) (input : List Char) :
    Int × List Char :=
  let index0 : Int := (tokens.length : Int) - 1
  let expr0 : List Char := (tokens.getLast?).getD []
  if jsTrim input = [] then ((0 : Int), ([] : List Char))
  else if hasTailingWhitespace input then (index0 + 1, ([] : List Char))
  else (index0, expr0)

/-- `collectAutocompleteCandidates(callbacks, input)`.  The tokenizer `parse`
comes from the external `shell-quote` package and is taken as a parameter.
The `reduce` with its `try`/`catch` is the `foldl`; a throwing callback
(`Except.error`) leaves the accumulator unchanged. -/
def collectAutocompleteCandidates (parse : List Char → List (List Char))
    (callbacks : List AutocompleteCallback) (input : List Char) : List (List Char) :=
  let tokens := parse input
  let ie := autocompleteIndexExpr tokens input
  let all := callbacks.foldl (fun cands cb =>
    match cb.run ie.1 tokens with
    | .ok res => cands ++ res
    | .error _ => cands) []
  all.filter fun txt => ie.2.isPrefixOf txt

/-! ## Utils: shared fragment -/

/-- Result of one pass of the `for` loop inside `getSharedFragment`. -/
inductive FragLoopResult where
  | retNone
  | retOld
  | next
deriving Repr, DecidableEq

/-- The `for` loop of `getSharedFragment`: scan `candidates` in order; a
candidate that does not start with `old` returns `null` (`retNone`); one that
starts with `old` but not with `fr` returns the old fragment (`retOld`);
if the loop finishes, recursion continues (`next`). -/
def sharedFragLoop (old fr : List Char) : List (List Char) → FragLoopResult
  | [] => .next
  | c :: rest =>
    if ¬ old.isPrefixOf c then .retNone
    else if ¬ fr.isPrefixOf c then .retOld
    else sharedFragLoop old fr rest

/-- `getSharedFragment(fragment, candidates)`.  On an empty candidate list the
JavaScript source throws (`candidates[0].length` on `undefined`); the claims
only concern non-empty candidate lists, and that case is mapped to `none`.
`candidates[0].slice(fragment.length, fragment.length + 1)` is the
`take 1`/`drop` extension by one character. -/
def getSharedFragment (fragment : List Char) (candidates : List (List Char)) :
    Option (List Char) :=
  match candidates with
  | [] => none
  | c0 :: rest =>
    if c0.length ≤ fragment.length then some fragment
    else
      let fragment' := fragment ++ (c0.drop fragment.length).take 1
      match sharedFragLoop fragment fragment' (c0 :: rest) with
      | .retNone => none
      | .retOld => some fragment
      | .next => getSharedFragment fragment' (c0 :: rest)
termination_by ((candidates.headD []).length - fragment.length)
decreasing_by
  simp only [List.headD_cons, fragment', List.length_append, List.length_take,
    List.length_drop]
  omega

/-! ## LocalEchoController

The controller state tracked here consists of the fields that the claims are
about: `_input` (the buffer), `_cursor`, `_active`, the history, the active
line-read prompt and the cached terminal size.  Calls to `term.write` only
affect the rendered display and are not part of this state; `clearInput`,
which only emits escape sequences, is therefore the identity on it.
`handleReadComplete` and `handleData` additionally return the value the
pending line-read promise is resolved with (`none` when no resolution
happens). -/

/-- The `_activePrompt` record (without its promise callbacks). -/
structure PromptData where
  prompt : List Char
  continuation : List Char
deriving Repr, DecidableEq

/-- The controller session state. -/
structure TermState where
  input : List Char
  cursor : Int
  active : Bool
  history : HistoryState
  activePrompt : Option PromptData
  termCols : Nat
  termRows : Nat
deriving Repr, DecidableEq

/-- The `LocalEchoController` constructor state (`_input = ""`, `_cursor = 0`,
`_active = false`, history of `options.historySize || 10`, term size `0×0`). -/
def TermState.initial (historySize : Nat) : TermState :=
  { input := [], cursor := 0, active := false, history := HistoryState.init historySize,
    activePrompt := none, termCols := 0, termRows := 0 }

/-- `setCursor(newCursor)`: clamp into `[0, _input.length]`, emit cursor
movement escapes (display only), store the new offset. -/
def TermState.setCursor (s : TermState) (newCursor : Int) : TermState :=
  let n0 := if newCursor < 0 then 0 else newCursor
  let n1 := if n0 > (s.input.length : Int) then (s.input.length : Int) else n0
  { s with cursor := n1 }

/-- `setInput(newInput, clearInput)`: replace the buffer, trimming the cursor
when it overflows the new input (`clearInput` only affects the display). -/
def TermState.setInput (s : TermState) (newInput : List Char) : TermState :=
  let c := if s.cursor > (newInput.length : Int) then (newInput.length : Int) else s.cursor
  { s with input := newInput, cursor := c }

/-- `handleCursorMove(dir)`. -/
def TermState.handleCursorMove (s : TermState) (dir : Int) : TermState :=
  if dir > 0 then s.setCursor (s.cursor + min dir ((s.input.length : Int) - s.cursor))
  else if dir < 0 then s.setCursor (s.cursor + max dir (-s.cursor))
  else s

/-- `handleCursorErase(backspace)`. -/
def TermState.handleCursorErase (s : TermState) (backspace : Bool) : TermState :=
  if backspace then
    if s.cursor ≤ 0 then s
    else
      let newInput := jsSubstrLen s.input 0 (s.cursor - 1) ++ jsSubstrFrom s.input s.cursor
      TermState.setInput { s with cursor := s.cursor - 1 } newInput
  else
    let newInput := jsSubstrLen s.input 0 s.cursor ++ jsSubstrFrom s.input (s.cursor + 1)
    s.setInput newInput

/-- `handleCursorInsert(data)`: splice `data` in at the cursor, advance the
cursor by `data.length`, then `setInput`. -/
def TermState.handleCursorInsert (s : TermState) (data : List Char) : TermState :=
  let newInput := jsSubstrLen s.input 0 s.cursor ++ data ++ jsSubstrFrom s.input s.cursor
  TermState.setInput { s with cursor := s.cursor + (data.length : Int) } newInput

/-- The Up-arrow branch of `handleData`: `history.getPrevious()` and, when the
returned value is truthy (present and non-empty), `setInput`/`setCursor`. -/
def TermState.handleHistoryPrevious (s : TermState) : TermState :=
  match s.history.getPrevious with
  | (h, some value) =>
    if value ≠ [] then
      (TermState.setInput { s with history := h } value).setCursor value.length
    else { s with history := h }
  | (h, none) => { s with history := h }

/-- The Down-arrow branch of `handleData`: `history.getNext()`, falsy values
replaced by `""`, then `setInput`/`setCursor`. -/
def TermState.handleHistoryNext (s : TermState) : TermState :=
  let hv := s.history.getNext
  let value := hv.2.getD []
  let s' := { s with history := hv.1 }
  (s'.setInput value).setCursor value.length

/-- The Ctrl+C branch of `handleData`: move the cursor to the end, echo `^C`
and the prompt (display only), clear buffer and cursor, rewind history. -/
def TermState.handleCtrlC (s : TermState) : TermState :=
  let s' := s.setCursor s.input.length
  { s' with input := [], cursor := 0, history := s'.history.rewind }

/-- `read(prompt, continuationPrompt)`: register the pending prompt and reset
buffer, cursor and activity flag. -/
def TermState.readStart (s : TermState) (p : PromptData) : TermState :=
  { s with activePrompt := some p, input := [], cursor := 0, active := true }

/-- `handleReadComplete()`: push the buffer to history, resolve the pending
line-read promise (if any) with the buffer, write a line break (display only)
and deactivate.  The buffer and cursor fields are left untouched. -/
def TermState.handleReadComplete (s : TermState) : TermState × Option (List Char) :=
  let h := s.history.push s.input
  match s.activePrompt with
  | some _ => ({ s with history := h, activePrompt := none, active := false }, some s.input)
  | none => ({ s with history := h, active := false }, none)

/-- `handleTermResize(data)`: clear with the old size (display only), cache
the new size, re-render via `setInput(this._input, false)`. -/
def TermState.handleTermResize (s : TermState) (cols rows : Nat) : TermState :=
  TermState.setInput { s with termCols := cols, termRows := rows } s.input

/-- `handleData(data)` for a controller with no registered autocomplete
handlers (so the Tab branch inserts four spaces; the branch for registered
handlers is asynchronous prompt-restart machinery whose pure components are
`collectAutocompleteCandidates` and `getSharedFragment` above).  Returns the
new state and the value resolving the pending line-read promise, if any.
`switch (data)` compares the whole data string, hence the equations on
`data`; an unrecognized escape sequence or control character is ignored. -/
def TermState.handleData (s : TermState) (data : List Char) : TermState × Option (List Char) :=
  if ¬ s.active then (s, none)
  else match data with
  | [] => (s.handleCursorInsert [], none)
  | c :: rest =>
    if c = '\x1b' then
      (match rest with
       | ['[', 'A'] => s.handleHistoryPrevious
       | ['[', 'B'] => s.handleHistoryNext
       | ['[', 'D'] => s.handleCursorMove (-1)
       | ['[', 'C'] => s.handleCursorMove 1
       | ['[', '3', '~'] => s.handleCursorErase false
       | ['[', 'F'] => s.setCursor s.input.length
       | ['[', 'H'] => s.setCursor 0
       | ['b'] => s.setCursor (closestLeftBoundary s.input s.cursor)
       | ['f'] => s.setCursor (closestRightBoundary s.input s.cursor)
       | ['\x7f'] =>
         let ofs := closestLeftBoundary s.input s.cursor
         (s.setInput (jsSubstrLen s.input 0 (ofs : Int) ++ jsSubstrFrom s.input s.cursor)).setCursor ofs
       | _ => s, none)
    else if c.toNat < 32 ∨ c.toNat = 0x7f then
      if data = ['\r'] then
        if isIncompleteInput s.input then (s.handleCursorInsert ['\n'], none)
        else s.handleReadComplete
      else if data = ['\x7f'] then (s.handleCursorErase true, none)
      else if data = ['\t'] then (s.handleCursorInsert [' ', ' ', ' ', ' '], none)
      else if data = ['\x03'] then (s.handleCtrlC, none)
      else (s, none)
    else (s.handleCursorInsert data, none)

/-- The cursor invariant: the offset lies in `[0, length(Buffer)]`. -/
def TermState.Inv (s : TermState) : Prop :=
  0 ≤ s.cursor ∧ s.cursor ≤ (s.input.length : Int)

instance (s : TermState) : Decidable s.Inv := by
  unfold TermState.Inv; infer_instance

/-- One state-mutating operation of the controller, with arbitrary
arguments. -/
inductive EditStep : TermState → TermState → Prop
  | setCursor (s : TermState) (n : Int) : EditStep s (s.setCursor n)
  | setInput (s : TermState) (inp : List Char) : EditStep s (s.setInput inp)
  | cursorMove (s : TermState) (d : Int) : EditStep s (s.handleCursorMove d)
  | cursorErase (s : TermState) (b : Bool) : EditStep s (s.handleCursorErase b)
  | cursorInsert (s : TermState) (d : List Char) : EditStep s (s.handleCursorInsert d)
  | histPrev (s : TermState) : EditStep s s.handleHistoryPrevious
  | histNext (s : TermState) : EditStep s s.handleHistoryNext
  | ctrlC (s : TermState) : EditStep s s.handleCtrlC
  | readStart (s : TermState) (p : PromptData) : EditStep s (s.readStart p)

/-! ## printWide layout -/

/-- The column count computed by `printWide(items, padding)`:
`Math.floor(termSize.cols / (max item length + padding))`.  The source
applies no lower clamp. -/
def printWideCols (items : List (List Char)) (padding termCols : Nat) : Nat :=
  let itemWidth := items.foldl (fun w it => max w it.length) 0 + padding
  termCols / itemWidth

/-- The row count of the `printWide` matrix,
`Math.ceil(items.length / wideCols)`: `none` models the JavaScript value
`Infinity` produced when `wideCols = 0`, in which case the
`for (let row = 0; row < wideRows; ++row)` loop never terminates. -/
def printWideRows (items : List (List Char)) (padding termCols : Nat) : Option Nat :=
  let wideCols := printWideCols items padding termCols
  if wideCols = 0 then none
  else some ((items.length + wideCols - 1) / wideCols)

/-! ## Spec-side definition for claim C2 -/

/-- Modelled from the spec's words, for comparison with `isIncompleteInput`
(claim C2): the number of occurrences of `q` in `input` that are not preceded
by an escaping backslash. -/
def specUnescapedCount (input : List Char) (q : Char) : Nat :=
  ((List.range input.length).filter fun i =>
    input.get? i == some q && (i == 0 || input.get? (i - 1) != some '\\')).length

/-! ## Concrete Enter-key scenario for claim C3 -/

/-- The prompt `read("$ ")` of the C3 scenario. -/
def enterScenarioPrompt : PromptData :=
  { prompt := ['$', ' '], continuation := ['>', ' '] }

/-- Start a read with prompt `"$ "` on a fresh controller, type `h`, `i`,
press Enter; final state and the value resolving the line-read promise. -/
def enterScenarioFinal : TermState × Option (List Char) :=
  ((((TermState.initial 10).readStart enterScenarioPrompt).handleData
      ['h']).1.handleData ['i']).1.handleData ['\r']

/-! ## Theorems -/

/-- C1: the claim states FIFO eviction (oldest entry evicted, the `size` most
recent entries retained).  Evaluating the source's `push` at capacity 2 with
the three distinct non-empty entries `"a"`, `"b"`, `"c"` retains `["a", "b"]`:
`this.entries.pop(0)` removes the newest entry, not the oldest, because
JavaScript `Array.prototype.pop` ignores its argument. -/
theorem C1_push_evicts_newest :
    ((((HistoryState.init 2).push ['a']).push ['b']).push ['c']).entries = [['a'], ['b']] ∧
    ((((HistoryState.init 2).push ['a']).push ['b']).push ['c']).entries ≠ [['b'], ['c']] := by
  decide

/-- C5: the claim states the column count of `printWide` is
`floor(terminalColumns / (maxItemLength + padding))` clamped below by 1, so
the layout is finite.  Evaluating the source's computation at the non-empty
item list `["aaaa"]` with padding 2 and terminal width 5 yields 0 columns and
a divergent (`Infinity`) row count: the source has no lower clamp. -/
theorem C5_printWide_zero_columns :
    printWideCols [['a', 'a', 'a', 'a']] 2 5 = 0 ∧
    printWideRows [['a', 'a', 'a', 'a']] 2 5 = none ∧
    ([['a', 'a', 'a', 'a']] : List (List Char)) ≠ [] := by
  decide

/-- C2 counterexample: the input `echo \'` has zero unescaped single quotes
and zero unescaped double quotes (its only quote is backslash-escaped), no
dangling operator and no tailing single backslash, yet `isIncompleteInput`
judges it incomplete: the source counts all quote characters, escaped or
not. -/
theorem C2_counterexample_escaped_quote :
    isIncompleteInput ['e', 'c', 'h', 'o', ' ', '\\', '\''] = true ∧
    specUnescapedCount ['e', 'c', 'h', 'o', ' ', '\\', '\''] '\'' % 2 = 0 ∧
    specUnescapedCount ['e', 'c', 'h', 'o', ' ', '\\', '\''] '"' % 2 = 0 ∧
    jsTrim (lastSplitChunk ['e', 'c', 'h', 'o', ' ', '\\', '\''] []) ≠ [] ∧
    List.isSuffixOf ['\\'] ['e', 'c', 'h', 'o', ' ', '\\', '\''] = false := by
  decide

/-- C2 (amended): a non-blank input is judged incomplete whenever the total
count of single-quote characters is odd, or the total count of double-quote
characters is odd; backslash-escaped quotes contribute to these counts. -/
theorem C2_quote_parity (input : List Char) (hblank : jsTrim input ≠ [])
    (hq : input.count '\'' % 2 = 1 ∨ input.count '"' % 2 = 1) :
    isIncompleteInput input = true := by
  unfold isIncompleteInput
  rw [if_neg hblank]
  by_cases h1 : input.count '\'' % 2 ≠ 0
  · rw [if_pos h1]
  · rw [if_neg h1]
    have h2 : input.count '"' % 2 ≠ 0 := by
      rcases hq with h | h <;> omega
    rw [if_pos h2]

/-- C2 witness: the input `\'`, whose only quote is backslash-escaped, is
non-blank and has an odd single-quote count, hence is judged incomplete. -/
theorem C2_quote_parity_witness :
    jsTrim ['\\', '\''] ≠ [] ∧ isIncompleteInput ['\\', '\''] = true :=
  ⟨by decide, C2_quote_parity ['\\', '\''] (by decide) (Or.inl (by decide))⟩

/-- C3 counterexample: in the scenario `read("$ ")`, type `h`, `i`, press
Enter, the pending line-read promise is resolved with `"hi"`, but afterwards
the buffer still holds `"hi"` and the cursor offset 2: `handleReadComplete`
does not reset them, contrary to the claim's "reset to empty/0 afterward". -/
theorem C3_counterexample_buffer_not_reset :
    enterScenarioFinal.2 = some ['h', 'i'] ∧
    enterScenarioFinal.1.input = ['h', 'i'] ∧
    enterScenarioFinal.1.input ≠ [] ∧
    enterScenarioFinal.1.cursor = 2 := by
  decide

/-- C3 (amended): pressing Enter on the complete buffer `"hi"` resolves the
pending line-read promise with exactly `"hi"` and deactivates the session;
the buffer and cursor keep their values and are reset to empty/0 when the
next `read` begins. -/
theorem C3_enter_resolves_with_buffer :
    enterScenarioFinal.2 = some ['h', 'i'] ∧
    enterScenarioFinal.1.active = false ∧
    (enterScenarioFinal.1.readStart enterScenarioPrompt).input = [] ∧
    (enterScenarioFinal.1.readStart enterScenarioPrompt).cursor = 0 := by
  decide

/-- C10: for a non-empty candidate list, when `fragment` is at least as long
as the FIRST candidate, `getSharedFragment` returns `fragment` unchanged with
no condition on the remaining candidates; and the `null` sentinel is only
produced when the early return did not fire, i.e. after the fragment was
extended at least once (`fragment` shorter than the first candidate). -/
theorem C10_sharedFragment_stop :
    (∀ (fragment c0 : List Char) (rest : List (List Char)),
      c0.length ≤ fragment.length →
      getSharedFragment fragment (c0 :: rest) = some fragment) ∧
    (∀ (fragment c0 : List Char) (rest : List (List Char)),
      getSharedFragment fragment (c0 :: rest) = none →
      fragment.length < c0.length) := by
  constructor
  · intro fragment c0 rest h
    rw [getSharedFragment]
    simp [h]
  · intro fragment c0 rest h
    by_contra hc
    push_neg at hc
    rw [getSharedFragment] at h
    simp [hc] at h

/-- C10 witness: `getSharedFragment "ab" ["a", "z"]` returns `"ab"` although
the candidate `"z"` does not start with `"ab"` and the shortest-candidate
length is exceeded; and `getSharedFragment "x" ["ab"] = null` indeed has its
fragment shorter than the first candidate. -/
theorem C10_sharedFragment_witness :
    getSharedFragment ['a', 'b'] [['a'], ['z']] = some ['a', 'b'] ∧
    (['x'] : List Char).length < (['a', 'b'] : List Char).length :=
  ⟨C10_sharedFragment_stop.1 ['a', 'b'] ['a'] [['z']] (by decide),
   C10_sharedFragment_stop.2 ['x'] ['a', 'b'] [] (by rw [getSharedFragment]; decide)⟩

/-- `find?` on a reversed list is the last satisfying element: the
`getLast?` of the filtered list. -/
theorem find?_reverse_eq_getLast?_filter {α : Type} (l : List α) (p : α → Bool) :
    l.reverse.find? p = (l.filter p).getLast? := by
  induction l with
  | nil => simp
  | cons a t ih =>
    rw [List.reverse_cons, List.find?_append, ih, List.filter_cons]
    by_cases hpa : p a
    · simp only [hpa, if_true]
      cases hft : t.filter p with
      | nil => simp [List.find?, hpa]
      | cons b l' =>
        cases hg : (b :: l').getLast? with
        | none => exact absurd (List.getLast?_eq_none_iff.mp hg) (by simp)
        | some m => simp [hg, List.getLast?_cons_cons]
    · simp [List.find?, hpa]

/-- `find?` is the first satisfying element: the `head?` of the filtered
list. -/
theorem find?_eq_head?_filter {α : Type} (l : List α) (p : α → Bool) :
    l.find? p = (l.filter p).head? := by
  induction l with
  | nil => simp
  | cons a t ih =>
    by_cases hpa : p a
    · rw [List.find?_cons_of_pos _ hpa, List.filter_cons, if_pos hpa, List.head?_cons]
    · rw [List.find?_cons_of_neg _ hpa, List.filter_cons, if_neg hpa]
      exact ih

/-- C4 counterexample: in `"  ab"` no word boundary lies strictly left of
offset 1, yet `closestLeftBoundary` returns 0, not the offset; in `"ab  "`
no word boundary lies strictly right of offset 3, yet `closestRightBoundary`
returns the input length 4, not the offset. -/
theorem C4_counterexample_fallback :
    (wordBoundaries [' ', ' ', 'a', 'b'] true).filter
        (fun x : Nat => decide ((x : Int) < 1)) = [] ∧
    closestLeftBoundary [' ', ' ', 'a', 'b'] 1 = 0 ∧
    closestLeftBoundary [' ', ' ', 'a', 'b'] 1 ≠ 1 ∧
    (wordBoundaries ['a', 'b', ' ', ' '] false).filter
        (fun x : Nat => decide ((3 : Int) < (x : Int))) = [] ∧
    closestRightBoundary ['a', 'b', ' ', ' '] 3 = 4 ∧
    closestRightBoundary ['a', 'b', ' ', ' '] 3 ≠ 3 := by
  decide

/-- C4 (amended): `closestLeftBoundary` returns the nearest (greatest) word
boundary strictly less than `offset` and falls back to `0` when none exists;
`closestRightBoundary` returns the nearest (least) word boundary strictly
greater than `offset` and falls back to `input.length` when none exists.
The boundary lists are strictly ascending, so `getLast?`/`head?` of the
filtered lists are exactly the nearest boundaries on each side. -/
theorem C4_boundary_nearest_or_fallback (input : List Char) (offset : Int) :
    closestLeftBoundary input offset =
      (((wordBoundaries input true).filter
        (fun x : Nat => decide ((x : Int) < offset))).getLast?).getD 0 ∧
    closestRightBoundary input offset =
      (((wordBoundaries input false).filter
        (fun x : Nat => decide (offset < (x : Int)))).head?).getD input.length ∧
    (wordBoundaries input true).Pairwise (· < ·) ∧
    (wordBoundaries input false).Pairwise (· < ·) := by
  refine ⟨?_, ?_, ?_, ?_⟩
  · unfold closestLeftBoundary
    rw [find?_reverse_eq_getLast?_filter]
  · unfold closestRightBoundary
    rw [find?_eq_head?_filter]
  · simp only [wordBoundaries, if_true]
    exact (List.pairwise_lt_range _).filter _
  · simp only [wordBoundaries, if_true]
    exact (List.pairwise_lt_range _).filter _

/-- C7: a resize event leaves the buffer and the cursor offset exactly
unchanged and only updates the cached terminal size: `handleTermResize`
clears with the old size (display only), stores the new size and re-renders
via `setInput(this._input, false)`, whose cursor trim is a no-op on any
state satisfying the cursor invariant. -/
theorem C7_resize_preserves_buffer (s : TermState) (cols rows : Nat) (h : s.Inv) :
    (s.handleTermResize cols rows).input = s.input ∧
    (s.handleTermResize cols rows).cursor = s.cursor ∧
    (s.handleTermResize cols rows).termCols = cols ∧
    (s.handleTermResize cols rows).termRows = rows := by
  obtain ⟨h0, h1⟩ := h
  unfold TermState.handleTermResize TermState.setInput
  refine ⟨rfl, ?_, rfl, rfl⟩
  simp only
  rw [if_neg (by omega)]

/-- C7 witness: resizing the fresh controller state (which satisfies the
cursor invariant) to 80×24 keeps its buffer. -/
theorem C7_resize_witness :
    TermState.Inv (TermState.initial 10) ∧
    ((TermState.initial 10).handleTermResize 80 24).input = (TermState.initial 10).input :=
  ⟨by decide, (C7_resize_preserves_buffer (TermState.initial 10) 80 24 (by decide)).1⟩

/-- `setCursor` establishes the cursor invariant unconditionally: any
requested offset is clamped into `[0, length]`. -/
theorem inv_setCursor (s : TermState) (n : Int) : (s.setCursor n).Inv := by
  unfold TermState.setCursor TermState.Inv
  simp only
  split_ifs <;> constructor <;> omega

/-- `setInput` preserves non-negativity of the cursor and trims it to the new
input's length. -/
theorem inv_setInput (s : TermState) (inp : List Char) (h : 0 ≤ s.cursor) :
    (s.setInput inp).Inv := by
  unfold TermState.setInput TermState.Inv
  simp only
  split_ifs <;> constructor <;> omega

/-- `handleCursorMove` preserves the cursor invariant. -/
theorem inv_handleCursorMove (s : TermState) (d : Int) (h : s.Inv) :
    (s.handleCursorMove d).Inv := by
  unfold TermState.handleCursorMove
  split_ifs <;> first | exact inv_setCursor _ _ | exact h

/-- `handleCursorErase` preserves the cursor invariant. -/
theorem inv_handleCursorErase (s : TermState) (b : Bool) (h : s.Inv) :
    (s.handleCursorErase b).Inv := by
  unfold TermState.handleCursorErase
  split_ifs with hb hc
  · exact h
  · exact inv_setInput _ _ (by show (0 : Int) ≤ s.cursor - 1; omega)
  · exact inv_setInput _ _ h.1

/-- `handleCursorInsert` preserves the cursor invariant. -/
theorem inv_handleCursorInsert (s : TermState) (d : List Char) (h : s.Inv) :
    (s.handleCursorInsert d).Inv := by
  unfold TermState.handleCursorInsert
  exact inv_setInput _ _ (by have := h.1; simp only; omega)

/-- Up-arrow history navigation preserves the cursor invariant. -/
theorem inv_handleHistoryPrevious (s : TermState) (h : s.Inv) :
    s.handleHistoryPrevious.Inv := by
  unfold TermState.handleHistoryPrevious
  split
  · split_ifs
    · exact inv_setCursor _ _
    · exact h
  · exact h

/-- Down-arrow history navigation preserves the cursor invariant (it always
ends in a clamping `setCursor`). -/
theorem inv_handleHistoryNext (s : TermState) :
    s.handleHistoryNext.Inv := by
  unfold TermState.handleHistoryNext
  exact inv_setCursor _ _

/-- Ctrl+C resets buffer and cursor, re-establishing the invariant. -/
theorem inv_handleCtrlC (s : TermState) : s.handleCtrlC.Inv := by
  unfold TermState.handleCtrlC TermState.Inv
  simp

/-- `read` resets buffer and cursor, re-establishing the invariant. -/
theorem inv_readStart (s : TermState) (p : PromptData) : (s.readStart p).Inv := by
  unfold TermState.readStart TermState.Inv
  simp

/-- Every single state-mutating operation preserves the cursor invariant. -/
theorem inv_editStep {s s' : TermState} (h : s.Inv) (st : EditStep s s') : s'.Inv := by
  cases st with
  | setCursor n => exact inv_setCursor s n
  | setInput inp => exact inv_setInput s inp h.1
  | cursorMove d => exact inv_handleCursorMove s d h
  | cursorErase b => exact inv_handleCursorErase s b h
  | cursorInsert d => exact inv_handleCursorInsert s d h
  | histPrev => exact inv_handleHistoryPrevious s h
  | histNext => exact inv_handleHistoryNext s
  | ctrlC => exact inv_handleCtrlC s
  | readStart p => exact inv_readStart s p

/-- C6: in every session state reachable by state-mutating operations
(`setCursor`, `setInput`, `handleCursorMove`, `handleCursorErase`,
`handleCursorInsert`, history navigation, Ctrl+C reset, read start) from a
state satisfying the cursor invariant, the cursor offset lies in
`[0, length(Buffer)]`; moreover `setCursor` clamps every out-of-range
request into range — no operation signals an error. -/
theorem C6_cursor_invariant :
    (∀ s s' : TermState, s.Inv → Relation.ReflTransGen EditStep s s' → s'.Inv) ∧
    (∀ (s : TermState) (n : Int), (s.setCursor n).Inv) := by
  constructor
  · intro s s' h hr
    induction hr with
    | refl => exact h
    | tail _ st ih => exact inv_editStep ih st
  · exact inv_setCursor

/-- C6 witness: from the fresh controller state, requesting the out-of-range
cursor offset 99 still yields a state satisfying the invariant. -/
theorem C6_cursor_invariant_witness :
    TermState.Inv ((TermState.initial 10).setCursor 99) :=
  C6_cursor_invariant.1 (TermState.initial 10) _ (by decide)
    (Relation.ReflTransGen.single (EditStep.setCursor (TermState.initial 10) 99))

/-- Unrolling `offsetToColRow` by one loop iteration. -/
theorem offsetToColRow_succ (input : List Char) (o maxCols : Nat) :
    offsetToColRow input (o + 1) maxCols =
      offsetToColRowStep maxCols (offsetToColRow input o maxCols) (input.get? o) := by
  unfold offsetToColRow
  rw [List.range_succ, List.foldl_append]
  rfl

/-- A single loop iteration never decreases the row. -/
theorem offsetToColRowStep_row_le (maxCols : Nat) (rc : Nat × Nat) (c : Option Char) :
    rc.1 ≤ (offsetToColRowStep maxCols rc c).1 := by
  unfold offsetToColRowStep
  split_ifs <;> simp

/-- The row component of `offsetToColRow` is monotone in the offset. -/
theorem offsetToColRow_row_mono (input : List Char) (maxCols : Nat) {o1 o2 : Nat}
    (h : o1 ≤ o2) :
    (offsetToColRow input o1 maxCols).1 ≤ (offsetToColRow input o2 maxCols).1 := by
  induction o2, h using Nat.le_induction with
  | base => exact Nat.le_refl _
  | succ n hn ih =>
    calc (offsetToColRow input o1 maxCols).1
        ≤ (offsetToColRow input n maxCols).1 := ih
      _ ≤ (offsetToColRow input (n + 1) maxCols).1 := by
          rw [offsetToColRow_succ]
          exact offsetToColRowStep_row_le _ _ _

/-- `offsetToColRow` only inspects the first `offset` characters. -/
theorem offsetToColRow_congr (input input' : List Char) (maxCols : Nat) :
    ∀ o : Nat, (∀ i : Nat, i < o → input.get? i = input'.get? i) →
      offsetToColRow input o maxCols = offsetToColRow input' o maxCols := by
  intro o
  induction o with
  | zero => intro _; rfl
  | succ n ih =>
    intro h
    rw [offsetToColRow_succ, offsetToColRow_succ, ih fun i hi => h i (by omega),
      h n (by omega)]

/-- C8: `countLines` is at least 1 for every input; the row of
`offsetToColRow` is monotone in the offset; and `countLines` never decreases
when the text is extended (for the fixed column width `maxCols`). -/
theorem C8_countLines_monotone (input ext : List Char) (maxCols o1 o2 : Nat)
    (_hm : 1 ≤ maxCols) (ho : o1 < o2) :
    1 ≤ countLines input maxCols ∧
    (offsetToColRow input o1 maxCols).1 ≤ (offsetToColRow input o2 maxCols).1 ∧
    countLines input maxCols ≤ countLines (input ++ ext) maxCols := by
  refine ⟨Nat.le_add_left 1 _, offsetToColRow_row_mono input maxCols (Nat.le_of_lt ho), ?_⟩
  unfold countLines
  have h1 : offsetToColRow input input.length maxCols =
      offsetToColRow (input ++ ext) input.length maxCols :=
    offsetToColRow_congr input (input ++ ext) maxCols input.length
      fun i hi => by
        rw [List.get?_eq_getElem?, List.get?_eq_getElem?, List.getElem?_append_left hi]
  rw [h1]
  have h2 := offsetToColRow_row_mono (input ++ ext) maxCols
    (show input.length ≤ (input ++ ext).length by simp)
  omega

/-- C8 witness: at `"ab"` extended by `"cd"` with width 80 and offsets
`0 < 1`, all three parts hold. -/
theorem C8_countLines_monotone_witness :
    1 ≤ countLines ['a', 'b'] 80 ∧
    (offsetToColRow ['a', 'b'] 0 80).1 ≤ (offsetToColRow ['a', 'b'] 1 80).1 ∧
    countLines ['a', 'b'] 80 ≤ countLines (['a', 'b'] ++ ['c', 'd']) 80 :=
  C8_countLines_monotone ['a', 'b'] ['c', 'd'] 80 0 1 (by decide) (by decide)

/-- The `reduce` accumulator of `collectAutocompleteCandidates`: a throwing
callback contributes nothing, the others contribute their results in
registration order. -/
theorem foldl_callbacks_eq_flatten (i : Int) (tokens : List (List Char)) :
    ∀ (cbs : List AutocompleteCallback) (acc : List (List Char)),
      (cbs.foldl (fun cands cb =>
        match cb.run i tokens with
        | .ok res => cands ++ res
        | .error _ => cands) acc) =
      acc ++ (cbs.map fun cb =>
        match cb.run i tokens with
        | .ok res => res
        | .error _ => []).flatten := by
  intro cbs
  induction cbs with
  | nil => simp
  | cons cb rest ih =>
    intro acc
    rw [List.foldl_cons, List.map_cons, List.flatten_cons, ih]
    cases cb.run i tokens <;> simp

/-- C9: `collectAutocompleteCandidates` equals the concatenation, in
registration order, of each provider's candidates — a raising provider
(`Except.error`) contributing the empty list without aborting the others —
filtered to the candidates starting with the computed expression. -/
theorem C9_provider_isolation (parse : List Char → List (List Char))
    (callbacks : List AutocompleteCallback) (input : List Char) :
    collectAutocompleteCandidates parse callbacks input =
      ((callbacks.map fun cb =>
        match cb.run (autocompleteIndexExpr (parse input) input).1 (parse input) with
        | .ok res => res
        | .error _ => []).flatten).filter
        (fun txt => (autocompleteIndexExpr (parse input) input).2.isPrefixOf txt) := by
  simp only [collectAutocompleteCandidates]
  rw [foldl_callbacks_eq_flatten]
  rfl

end LocalEcho
